import Mathlib

/-!
Verification of the BIND zone-file importer in
`SoftLayer/CLI/modules/dns.py` (class `ImportZone`, method `execute`).

The importer reads the stripped lines of a zone file, extracts the zone
name from the first line with the regular expression
`^\$ORIGIN (?P<zone>.*)\.`, resolves or creates the zone remotely
(unless in dry-run mode), and then classifies every subsequent line with
the regular expression

  `^((?P<domain>([\w-]+(\.)?)*|\@)?\s+(?P<ttl>\d+)?\s+(?P<class>\w+)?)?\s+(?P<type>\w+)\s+(?P<record>.*)`

recording one table row per line.  MX records have their integer weight
stripped with the secondary pattern `(?P<weight>\d+)\s+(?P<record>.*)`.

The embedding below models Python regular-expression matching of these
three fixed patterns by a specialized backtracking matcher over lists of
characters (leftmost match, greedy quantifiers with backtracking,
alternatives tried left to right), and models the remote collaborators
(`resolve_ids`, `create_zone`, `create_record`) by an oracle that
answers the k-th remote call, together with an explicit call trace.
Input lines come from `[line.strip() for line in open(file)]`, so they
never contain a newline character.
-/

namespace DnsImport

/-- Python `\w` (no re.UNICODE): ASCII letter, digit or underscore. -/
def isWordChar (c : Char) : Bool := c.isAlpha || c.isDigit || c = '_'

/-- Character class `[\w-]` used by the domain token of the record pattern. -/
def isDomChar (c : Char) : Bool := isWordChar c || c = '-'

/-- Python `\s`: space, tab, newline, carriage return, vertical tab, form feed. -/
def isSpaceChar (c : Char) : Bool :=
  c = ' ' || c = '\t' || c = '\n' || c = '\r' || c = '\x0b' || c = '\x0c'

/-- Python `\d`: ASCII digit. -/
def isDigitChar (c : Char) : Bool := c.isDigit

/-- Greedy backtracking continuation of a character-class `+`/`*` run:
having already consumed `acc`, try consuming as many further `p`-characters
as possible, longest first, handing the capture and the remaining input to
the continuation `k`; on failure of `k`, backtrack to a shorter run. -/
def capMore {R : Type} (p : Char → Bool) (acc : List Char) :
    List Char → (List Char → List Char → Option R) → Option R
  | [], k => k acc []
  | c :: rest, k =>
    if p c then (capMore p (acc ++ [c]) rest k) <|> k acc (c :: rest)
    else k acc (c :: rest)

/-- Greedy backtracking match of `p+` (one or more characters of class `p`),
longest first, passing the captured run and the rest to `k`. -/
def capPlus {R : Type} (p : Char → Bool) (l : List Char)
    (k : List Char → List Char → Option R) : Option R :=
  match l with
  | [] => none
  | c :: rest => if p c then capMore p [c] rest k else none

/-- Greedy backtracking match of `\s+`, capture discarded. -/
def sPlus {R : Type} (l : List Char) (k : List Char → Option R) : Option R :=
  capPlus isSpaceChar l (fun _ rest => k rest)

/-- One iteration of the domain star: `[\w-]+(\.)?`, both quantifiers greedy
with backtracking, accumulating the consumed text onto `acc`. -/
def domIter {R : Type} (acc : List Char) (l : List Char)
    (k : List Char → List Char → Option R) : Option R :=
  capPlus isDomChar l (fun cap rest =>
    match rest with
    | '.' :: rest2 => k (acc ++ cap ++ ['.']) rest2 <|> k (acc ++ cap) ('.' :: rest2)
    | _ => k (acc ++ cap) rest)

/-- The greedy star `([\w-]+(\.)?)*`: try another iteration first, falling
back to stopping here.  Each iteration consumes at least one character, so
fuel equal to the input length makes the fuel bound unreachable. -/
def domStar {R : Type} : Nat → List Char → List Char →
    (List Char → List Char → Option R) → Option R
  | 0, acc, l, k => k acc l
  | fuel + 1, acc, l, k =>
    (domIter acc l (fun acc2 rest2 => domStar fuel acc2 rest2 k)) <|> k acc l

/-- The optional domain group `(?P<domain>([\w-]+(\.)?)*|\@)?`: first
alternative greedy star (which may participate with an empty match), then
the literal `@`, then non-participation (capture `none`). -/
def domAlt {R : Type} (l : List Char)
    (k : Option (List Char) → List Char → Option R) : Option R :=
  (domStar l.length [] l (fun cap rest => k (some cap) rest))
  <|> (match l with
       | '@' :: rest => k (some ['@']) rest
       | _ => none)
  <|> k none l

/-- An optional capturing group `(p+)?`: participate greedily, else `none`. -/
def optCap {R : Type} (p : Char → Bool) (l : List Char)
    (k : Option (List Char) → List Char → Option R) : Option R :=
  (capPlus p l (fun cap rest => k (some cap) rest)) <|> k none l

/-- The named captures of a successful match of the record-line pattern:
groups `domain`, `ttl`, `class`, `type`, `record` (a group that did not
participate is `none`; `type` and `record` always participate). -/
structure ParsedLine where
  domain : Option (List Char)
  ttl : Option (List Char)
  recordClass : Option (List Char)
  rtype : List Char
  record : List Char
deriving DecidableEq

/-- The tail `\s+(?P<type>\w+)\s+(?P<record>.*)` of the record pattern,
run after the optional leading group (whose captures are passed in).
`.*` is greedy and nothing follows it, so `record` is the whole rest of
the line (lines are stripped and contain no newline). -/
def classifyTail (dom ttl cls : Option (List Char)) (l : List Char) :
    Option ParsedLine :=
  sPlus l (fun r1 =>
    capPlus isWordChar r1 (fun ty r2 =>
      sPlus r2 (fun r3 => some ⟨dom, ttl, cls, ty, r3⟩)))

/-- The search `re.search` of the record pattern against one line (the pattern is
anchored by `^`, so only a match at position 0 is possible): the optional
leading group `(domain? \s+ ttl? \s+ class?)?` is tried in all ways before
being skipped, with full backtracking through the tail. -/
def classify (l : List Char) : Option ParsedLine :=
  (domAlt l (fun dom r1 =>
    sPlus r1 (fun r2 =>
      optCap isDigitChar r2 (fun ttl r3 =>
        sPlus r3 (fun r4 =>
          optCap isWordChar r4 (fun cls r5 =>
            classifyTail dom ttl cls r5))))))
  <|> classifyTail none none none l

/-- The search `re.search(r'(?P<weight>\d+)\s+(?P<record>.*)', data)` followed by
`.group('record')`: unanchored search, leftmost match, `\d+` and `\s+`
greedy with backtracking; returns the `record` capture, or `none` when no
position matches (in the source this `none` case makes
`record_search.group('record')` raise AttributeError). -/
def mxSearch : List Char → Option (List Char)
  | [] => none
  | c :: rest =>
    (capPlus isDigitChar (c :: rest) (fun _ r2 => sPlus r2 (fun r3 => some r3)))
    <|> mxSearch rest

/-- The literal text `$ORIGIN ` that the origin pattern requires at the
start of the first line. -/
def originMarker : List Char := ['$', 'O', 'R', 'I', 'G', 'I', 'N', ' ']

/-- The text strictly before the last `.` of the input, or `none` when the
input contains no `.` — this is what the greedy `(?P<zone>.*)\.` captures. -/
def lastDotSplit : List Char → Option (List Char)
  | [] => none
  | c :: rest =>
    match lastDotSplit rest with
    | some z => some (c :: z)
    | none => if c = '.' then some [] else none

/-- The search `re.search(r'^\$ORIGIN (?P<zone>.*)\.', line)` followed by
`.group('zone')`: the line must start with `$ORIGIN ` and the greedy `.*`
with the following `\.` captures everything up to the last dot; characters
after that last dot are ignored.  `none` models the AttributeError raised
by `zone_search.group('zone')` when the search fails. -/
def originSearch (l : List Char) : Option (List Char) :=
  if originMarker.isPrefixOf l then lastDotSplit (l.drop 8) else none

/-- One remote call made through the `DNSManager` collaborator. -/
inductive Call
  | resolve (zone : List Char)
  | createZone (zone : List Char)
  | createRecord (zoneId : Nat) (host : List Char) (rtype : List Char)
      (rdata : List Char) (rttl : Option (List Char))
deriving DecidableEq

/-- One row of the outcome table (columns Action, Host, TTL, Type, Record).
The TTL cell is `none` when the source passes Python `None` (a record line
without a ttl group) and `some []` when it passes the empty string. -/
structure Row where
  action : List Char
  host : List Char
  ttl : Option (List Char)
  rtype : List Char
  rdata : List Char
deriving DecidableEq

/-- The ways `ImportZone.execute` terminates abnormally.
  * `emptyFile`: `lines[0]` raises IndexError on an empty file.
  * `originNoMatch`: the origin pattern fails and
    `zone_search.group('zone')` raises AttributeError on `None`.
  * `createZoneFailed` / `zoneResolveFailed`: an error raised by
    `create_zone` or by the second `resolve_id` inside the zone-creation
    handler is not caught and propagates.
  * `mxNoMatch`: the MX weight pattern fails and
    `record_search.group('record')` raises AttributeError on `None`.
  * `exceptClauseError`: `create_record` raised, and evaluating the clause
    `except exception.SoftLayerError` dereferences the name `exception`,
    which is unbound (or, if Python 2 kept the binding from the earlier
    zone-resolution handler, is an error instance with no attribute
    `SoftLayerError`); the resulting NameError/AttributeError propagates
    and aborts the run, so the `Exception` row of line 174 is unreachable. -/
inductive RunError
  | emptyFile
  | originNoMatch
  | createZoneFailed (msg : List Char)
  | zoneResolveFailed (msg : List Char)
  | mxNoMatch
  | exceptClauseError
deriving DecidableEq

/-- Mutable state of one import run: accumulated table rows, the trace of
remote calls made so far, and the index of the next oracle answer. -/
structure RunState where
  rows : List Row
  calls : List Call
  k : Nat
deriving DecidableEq

/-- The remote world: the k-th remote call either succeeds (with an id,
meaningful for `resolve` calls) or raises a SoftLayerError with a message. -/
abbrev Oracle := Nat → Except (List Char) Nat

/-- Python `str.upper` on each character (ASCII). -/
def listUpper (l : List Char) : List Char := l.map Char.toUpper

def actionDryRun : List Char := "Dry Run".data
def actionFound : List Char := "\x1b[92mFOUND".data
def actionCreatedZone : List Char := "\x1b[92mCREATED".data
def actionUnknown : List Char := "Unknown".data
def actionSkipped : List Char := "Skipped".data
def actionParsed : List Char := "\x1b[33mParsed".data
def actionCreated : List Char := "\x1b[32mCreated".data
def ansiReset : List Char := "\x1b[0m".data

/-- The row `table.add_row(["Unknown", content, '', '', ''])`. -/
def unknownRow (content : List Char) : Row :=
  ⟨actionUnknown, content, some [], [], []⟩

/-- The row `table.add_row(["Skipped", content, '', '', ''])`. -/
def skippedRow (content : List Char) : Row :=
  ⟨actionSkipped, content, some [], [], []⟩

/-- The zone row `table.add_row([action, zone, '', 'Zone', '\033[0m'])`. -/
def zoneRow (action zone : List Char) : Row :=
  ⟨action, zone, some [], "Zone".data, ansiReset⟩

/-- The body of the `for content in lines[1:]` loop for one line:
classify, default the host to `@`, skip SOA, strip the MX weight, and
either record a dry-run `Parsed` row or call `create_record`.  A `some`
error in the second component is an uncaught Python exception that aborts
the run at this line. -/
def processLine (oracle : Oracle) (dryRun : Bool) (zoneId : Nat)
    (st : RunState) (content : List Char) : RunState × Option RunError :=
  match classify content with
  | none => ({ st with rows := st.rows ++ [unknownRow content] }, none)
  | some pl =>
    if listUpper pl.rtype = "SOA".data then
      ({ st with rows := st.rows ++ [skippedRow content] }, none)
    else
      match (if listUpper pl.rtype = "MX".data then mxSearch pl.record
             else some pl.record) with
      | none => (st, some RunError.mxNoMatch)
      | some rdata =>
        if dryRun then
          ({ st with rows := st.rows ++
              [⟨actionParsed, pl.domain.getD ['@'], pl.ttl, pl.rtype,
                rdata ++ ansiReset⟩] },
           none)
        else
          match oracle st.k with
          | Except.ok _ =>
            ({ st with
                rows := st.rows ++
                  [⟨actionCreated, pl.domain.getD ['@'], pl.ttl, pl.rtype,
                    rdata ++ ansiReset⟩],
                calls := st.calls ++
                  [Call.createRecord zoneId (pl.domain.getD ['@']) pl.rtype
                    rdata pl.ttl],
                k := st.k + 1 },
             none)
          | Except.error _ =>
            ({ st with
                calls := st.calls ++
                  [Call.createRecord zoneId (pl.domain.getD ['@']) pl.rtype
                    rdata pl.ttl],
                k := st.k + 1 },
             some RunError.exceptClauseError)

/-- The `for content in lines[1:]` loop: process lines in order, stopping
at the first uncaught exception. -/
def processLines (oracle : Oracle) (dryRun : Bool) (zoneId : Nat) :
    RunState → List (List Char) → RunState × Option RunError
  | st, [] => (st, none)
  | st, c :: cs =>
    match processLine oracle dryRun zoneId st c with
    | (st2, none) => processLines oracle dryRun zoneId st2 cs
    | (st2, some e) => (st2, some e)

/-- The method `ImportZone.execute` on the stripped lines of the input file: origin
extraction from line 0, zone resolution (skipped with placeholder id 0 in
dry-run mode; otherwise resolve, and on failure create the zone and
resolve again, consuming oracle answers 0, 1, 2), the zone row, then the
per-line loop.  The first component holds the rows and remote calls
accumulated up to normal or abnormal termination. -/
def execute (oracle : Oracle) (dryRun : Bool) (lines : List (List Char)) :
    RunState × Option RunError :=
  match lines with
  | [] => (⟨[], [], 0⟩, some RunError.emptyFile)
  | line0 :: rest =>
    match originSearch line0 with
    | none => (⟨[], [], 0⟩, some RunError.originNoMatch)
    | some zone =>
      if dryRun then
        processLines oracle true 0 ⟨[zoneRow actionDryRun zone], [], 0⟩ rest
      else
        match oracle 0 with
        | Except.ok zid =>
          processLines oracle false zid
            ⟨[zoneRow actionFound zone], [Call.resolve zone], 1⟩ rest
        | Except.error _ =>
          match oracle 1 with
          | Except.error m =>
            (⟨[], [Call.resolve zone, Call.createZone zone], 2⟩,
             some (RunError.createZoneFailed m))
          | Except.ok _ =>
            match oracle 2 with
            | Except.error m =>
              (⟨[], [Call.resolve zone, Call.createZone zone, Call.resolve zone], 3⟩,
               some (RunError.zoneResolveFailed m))
            | Except.ok zid =>
              processLines oracle false zid
                ⟨[zoneRow actionCreatedZone zone],
                 [Call.resolve zone, Call.createZone zone, Call.resolve zone], 3⟩ rest

/-! ## Per-claim theorems -/

/-- C3: when the first line of the file does not match
`^\$ORIGIN (?P<zone>.*)\.`, the run aborts (the failed group access is the
FormatError of the spec taxonomy) with no remote call recorded and no
outcome row produced — in particular before any zone lookup, zone
creation, record creation, or record outcome row. -/
theorem execute_originFailure_aborts (oracle : Oracle) (dryRun : Bool)
    (line0 : List Char) (rest : List (List Char))
    (h : originSearch line0 = none) :
    execute oracle dryRun (line0 :: rest) =
      (⟨[], [], 0⟩, some RunError.originNoMatch) := by
  simp [execute, h]

/-- C3 witness: a first line missing the `$` of `$ORIGIN` aborts the run
with an empty call trace and an empty row list. -/
theorem execute_originFailure_aborts_witness :
    execute (fun _ => Except.ok 1) false
        ["ORIGIN example.com.".data, "www 86400 IN A 10.0.0.1".data] =
      (⟨[], [], 0⟩, some RunError.originNoMatch) :=
  execute_originFailure_aborts _ false _ _ (by decide)

/-- C5: a line on which classification fails (classification is a total
function into `Option`, so it cannot raise) appends exactly one row with
action `Unknown` whose host cell is the raw line text, and processing
continues with the remaining lines from that extended state. -/
theorem processLines_unknown_continues (oracle : Oracle) (dryRun : Bool)
    (zoneId : Nat) (st : RunState) (content : List Char)
    (cs : List (List Char)) (h : classify content = none) :
    processLines oracle dryRun zoneId st (content :: cs) =
      processLines oracle dryRun zoneId
        { st with rows := st.rows ++ [unknownRow content] } cs := by
  simp [processLines, processLine, h]

/-- C5 witness: the garbage line from the spec scenario is recorded as
`Unknown` with the raw text as host, and the next line is still
processed. -/
theorem processLines_unknown_continues_witness :
    processLines (fun _ => Except.ok 1) false 1 ⟨[], [], 0⟩
        ["!!! garbage !!!".data, "www 86400 IN A 10.0.0.1".data] =
      processLines (fun _ => Except.ok 1) false 1
        ⟨[unknownRow "!!! garbage !!!".data], [], 0⟩
        ["www 86400 IN A 10.0.0.1".data] :=
  processLines_unknown_continues (fun _ => Except.ok 1) false 1 ⟨[], [], 0⟩
    "!!! garbage !!!".data ["www 86400 IN A 10.0.0.1".data] (by decide)

/-- C6: a line whose parsed type equals `SOA` case-insensitively yields
exactly one row with action `Skipped`, the call trace is unchanged (so
`create_record` is never invoked for it and no `Created` row can appear),
and the loop continues normally. -/
theorem processLine_soa_skips (oracle : Oracle) (dryRun : Bool)
    (zoneId : Nat) (st : RunState) (content : List Char) (pl : ParsedLine)
    (h1 : classify content = some pl)
    (h2 : listUpper pl.rtype = "SOA".data) :
    processLine oracle dryRun zoneId st content =
      ({ st with rows := st.rows ++ [skippedRow content] }, none) := by
  simp [processLine, h1, h2]

/-- C6 witness: a lowercase `soa` line is skipped, with no remote call. -/
theorem processLine_soa_skips_witness :
    processLine (fun _ => Except.ok 1) false 1 ⟨[], [], 0⟩
        "@ 1 IN soa x y".data =
      (⟨[skippedRow "@ 1 IN soa x y".data], [], 0⟩, none) :=
  processLine_soa_skips (fun _ => Except.ok 1) false 1 ⟨[], [], 0⟩
    "@ 1 IN soa x y".data
    ⟨some "@".data, some "1".data, some "IN".data, "soa".data, "x y".data⟩
    (by decide) (by decide)

/-- The oracle of the C1 scenario: the zone resolves to id 1, and the
`create_record` call (oracle index 1) is rejected with a SoftLayerError. -/
def oracleC1 : Oracle := fun k =>
  if k = 0 then Except.ok 1 else Except.error "rejected".data

/-- The file of the C1 scenario. -/
def linesC1 : List (List Char) :=
  ["$ORIGIN example.com.".data, "www 86400 IN A 10.0.0.1".data]

/-- C1 (contradicted by the code): when `create_record` fails, the clause
`except exception.SoftLayerError` dereferences the unbound (or shadowed)
name `exception`, so the run aborts with that secondary error: the final
state holds only the zone row — no row with action `Exception` is ever
appended for the failing record and no further line would be processed. -/
theorem execute_createRecordFailure_aborts :
    execute oracleC1 false linesC1 =
      (⟨[zoneRow actionFound "example.com".data],
        [Call.resolve "example.com".data,
         Call.createRecord 1 "www".data "A".data "10.0.0.1".data
           (some "86400".data)], 2⟩,
       some RunError.exceptClauseError) := by decide

/-- The file of the C2 scenario: an MX record line whose data has no
integer weight prefix, followed by a well-formed A record line. -/
def linesC2 : List (List Char) :=
  ["$ORIGIN example.com.".data, "@ 900 IN MX mail.example.com".data,
   "www 60 IN A 10.0.0.1".data]

/-- C2 (contradicted by the code): when the MX weight-stripping pattern
fails to match, `record_search.group('record')` raises on `None` and the
run aborts at that line — even in dry-run mode: no row with action
`Exception` is recorded for the line and the following line is never
processed (the final state holds only the zone row). -/
theorem execute_mxNoWeight_aborts :
    execute (fun _ => Except.ok 1) true linesC2 =
      (⟨[zoneRow actionDryRun "example.com".data], [], 0⟩,
       some RunError.mxNoMatch) := by decide

/-- Space characters are not digits. -/
theorem space_not_digit (c : Char) (h : isSpaceChar c = true) :
    isDigitChar c = false := by
  simp only [isSpaceChar, Bool.or_eq_true, decide_eq_true_eq] at h
  rcases h with ((((h | h) | h) | h) | h) | h <;> subst h <;> rfl

/-- Running `capMore` on input `xs ++ ys` where every character of `xs`
satisfies the class and the first character of `ys` does not: the greedy
first attempt hands `acc ++ xs` and `ys` to the continuation, and if that
attempt succeeds its result is the overall result. -/
theorem capMore_run {R : Type} (p : Char → Bool) (v : R) :
    ∀ (xs acc ys : List Char) (k : List Char → List Char → Option R),
      (∀ c ∈ xs, p c = true) →
      (∀ c, ys.head? = some c → p c = false) →
      k (acc ++ xs) ys = some v →
      capMore p acc (xs ++ ys) k = some v
  | [], acc, ys, k, _, hys, hk => by
    cases ys with
    | nil => simpa using hk
    | cons y ys' =>
      have hy : p y = false := hys y rfl
      simpa [capMore, hy] using hk
  | x :: xs', acc, ys, k, hxs, hys, hk => by
    have hx : p x = true := hxs x (by simp)
    have ih := capMore_run p v xs' (acc ++ [x]) ys k
      (fun c hc => hxs c (by simp [hc])) hys
      (by simpa [List.append_assoc] using hk)
    simp [capMore, hx, ih, Option.orElse]

/-- C7: on MX data consisting of a nonempty run of digits, then a nonempty
run of whitespace, then a target that does not itself start with
whitespace, the weight-stripping search of lines 157-159 returns exactly
the target: the weight and the separating whitespace are chomped and the
target becomes the submitted record data. -/
theorem mxSearch_strips (w s t : List Char) (hw : w ≠ [])
    (hwd : ∀ c ∈ w, isDigitChar c = true) (hs : s ≠ [])
    (hss : ∀ c ∈ s, isSpaceChar c = true)
    (ht : ∀ c, t.head? = some c → isSpaceChar c = false) :
    mxSearch (w ++ s ++ t) = some t := by
  cases w with
  | nil => exact absurd rfl hw
  | cons d w' =>
    cases s with
    | nil => exact absurd rfl hs
    | cons e s' =>
      have hd : isDigitChar d = true := hwd d (by simp)
      have he : isSpaceChar e = true := hss e (by simp)
      have inner : sPlus ((e :: s') ++ t) (fun r3 => some r3) = some t := by
        have := capMore_run isSpaceChar t s' [e] t (fun _ rest => some rest)
          (fun c hc => hss c (by simp [hc])) ht rfl
        simp only [sPlus, capPlus, List.cons_append, he, if_true]
        simpa using this
      have outer : capMore isDigitChar [d] (w' ++ ((e :: s') ++ t))
          (fun _ r2 => sPlus r2 (fun r3 => some r3)) = some t := by
        refine capMore_run isDigitChar t w' [d] ((e :: s') ++ t) _
          (fun c hc => hwd c (by simp [hc])) ?_ inner
        intro c hc
        simp only [List.cons_append, List.head?] at hc
        cases hc
        exact space_not_digit e he
      simp only [List.cons_append, mxSearch, capPlus, hd, if_true]
      show ((capMore isDigitChar [d] ((w' ++ (e :: s')) ++ t)
          fun _ r2 => sPlus r2 fun r3 => some r3) <|>
          mxSearch ((w' ++ (e :: s')) ++ t)) = some t
      rw [List.append_assoc, outer]
      rfl

/-- C7 witness: the spec example `"10 mail.example.com."` normalizes to
`"mail.example.com."`. -/
theorem mxSearch_strips_witness :
    mxSearch ("10".data ++ " ".data ++ "mail.example.com.".data) =
      some "mail.example.com.".data :=
  mxSearch_strips "10".data " ".data "mail.example.com.".data
    (by decide) (by decide) (by decide) (by decide) (by decide)

/-- A list is a Boolean prefix of itself followed by anything. -/
theorem isPrefixOf_append_self (l r : List Char) :
    l.isPrefixOf (l ++ r) = true := by
  induction l with
  | nil => simp [List.isPrefixOf]
  | cons a as ih => simp [List.isPrefixOf, ih]

/-- Function `lastDotSplit` fails exactly when there is no dot. -/
theorem lastDotSplit_none (l : List Char) (h : ∀ c ∈ l, c ≠ '.') :
    lastDotSplit l = none := by
  induction l with
  | nil => rfl
  | cons c rest ih =>
    have hc : c ≠ '.' := h c (by simp)
    simp [lastDotSplit, ih (fun d hd => h d (by simp [hd])), hc]

/-- Function `lastDotSplit` returns everything before the last dot. -/
theorem lastDotSplit_last (z post : List Char) (h : ∀ c ∈ post, c ≠ '.') :
    lastDotSplit (z ++ '.' :: post) = some z := by
  induction z with
  | nil => simp [lastDotSplit, lastDotSplit_none post h]
  | cons a z' ih => simp [lastDotSplit, ih]

/-- C10: origin extraction accepts exactly the first lines that begin with
the literal `$ORIGIN ` and contain a dot after that marker; the extracted
zone is the text between the marker and the last dot of the line, and any
characters after that last dot are ignored (the trailing dot need not end
the line).  Conversely a line not starting with the marker, or with no dot
after it, is rejected. -/
theorem originSearch_spec :
    (∀ z post : List Char, (∀ c ∈ post, c ≠ '.') →
       originSearch (originMarker ++ z ++ '.' :: post) = some z) ∧
    (∀ l : List Char, originMarker.isPrefixOf l = false →
       originSearch l = none) ∧
    (∀ l : List Char, (∀ c ∈ l.drop 8, c ≠ '.') → originSearch l = none) := by
  refine ⟨?_, ?_, ?_⟩
  · intro z post h
    have hp := isPrefixOf_append_self originMarker (z ++ '.' :: post)
    have hd : (originMarker ++ (z ++ '.' :: post)).drop 8 = z ++ '.' :: post := by
      have h8 : (8 : Nat) = originMarker.length := rfl
      rw [h8, List.drop_left]
    simp [originSearch, hp, hd, lastDotSplit_last z post h]
  · intro l h
    simp [originSearch, h]
  · intro l h
    by_cases hp : originMarker.isPrefixOf l
    · simp [originSearch, hp, lastDotSplit_none _ h]
    · simp [originSearch, hp]

/-- C10 witness: `$ORIGIN example.com.xyz` is accepted, the zone is the
text before the last dot, and the trailing `xyz` is ignored. -/
theorem originSearch_spec_witness :
    originSearch (originMarker ++ "example.com".data ++ '.' :: "xyz".data) =
      some "example.com".data :=
  originSearch_spec.1 "example.com".data "xyz".data (by decide)

/-- Proof helper: the value of one dry-run loop iteration, which consults
neither the oracle nor the zone id. -/
def dryLineResult (st : RunState) (content : List Char) :
    RunState × Option RunError :=
  match classify content with
  | none => ({ st with rows := st.rows ++ [unknownRow content] }, none)
  | some pl =>
    if listUpper pl.rtype = "SOA".data then
      ({ st with rows := st.rows ++ [skippedRow content] }, none)
    else
      match (if listUpper pl.rtype = "MX".data then mxSearch pl.record
             else some pl.record) with
      | none => (st, some RunError.mxNoMatch)
      | some rdata =>
        ({ st with rows := st.rows ++
            [⟨actionParsed, pl.domain.getD ['@'], pl.ttl, pl.rtype,
              rdata ++ ansiReset⟩] },
         none)

/-- In dry-run mode one loop iteration equals `dryLineResult`. -/
theorem processLine_dry (o : Oracle) (z : Nat) (st : RunState)
    (c : List Char) : processLine o true z st c = dryLineResult st c := by
  unfold processLine dryLineResult
  cases classify c with
  | none => rfl
  | some pl =>
    by_cases hsoa : listUpper pl.rtype = "SOA".data
    · simp [hsoa]
    · cases hmx : (if listUpper pl.rtype = "MX".data then mxSearch pl.record
                   else some pl.record) <;> simp [hsoa, hmx]

/-- Function `dryLineResult` leaves the call trace untouched. -/
theorem dryLineResult_calls (st : RunState) (c : List Char) :
    (dryLineResult st c).1.calls = st.calls := by
  unfold dryLineResult
  cases classify c with
  | none => rfl
  | some pl =>
    by_cases hsoa : listUpper pl.rtype = "SOA".data
    · simp [hsoa]
    · cases hmx : (if listUpper pl.rtype = "MX".data then mxSearch pl.record
                   else some pl.record) <;> simp [hsoa, hmx]

/-- The dry-run loop never touches the call trace. -/
theorem processLines_dry_calls (o : Oracle) (z : Nat) :
    ∀ (cs : List (List Char)) (st : RunState),
      (processLines o true z st cs).1.calls = st.calls
  | [], _ => rfl
  | c :: cs, st => by
    simp only [processLines, processLine_dry o z st c]
    cases h : dryLineResult st c with
    | mk st2 e =>
      have hc : st2.calls = st.calls := by
        have h2 := dryLineResult_calls st c
        rw [h] at h2
        exact h2
      cases e with
      | none => rw [processLines_dry_calls o z cs st2, hc]
      | some e => exact hc

/-- The dry-run loop is independent of the oracle. -/
theorem processLines_dry_oracleIrrel (o₁ o₂ : Oracle) (z : Nat) :
    ∀ (cs : List (List Char)) (st : RunState),
      processLines o₁ true z st cs = processLines o₂ true z st cs
  | [], _ => rfl
  | c :: cs, st => by
    simp only [processLines, processLine_dry o₁ z st c, processLine_dry o₂ z st c]
    cases dryLineResult st c with
    | mk st2 e =>
      cases e with
      | none => exact processLines_dry_oracleIrrel o₁ o₂ z cs st2
      | some e => rfl

/-- C8: a dry-run import records zero remote calls for every input file —
`resolve_ids`, `create_zone` and `create_record` are never invoked (in
particular, zone-id resolution is skipped; the code uses the placeholder
id 0 instead). -/
theorem execute_dry_noRemoteCalls (oracle : Oracle)
    (lines : List (List Char)) :
    (execute oracle true lines).1.calls = [] := by
  cases lines with
  | nil => rfl
  | cons l0 rest =>
    cases ho : originSearch l0 with
    | none => simp [execute, ho]
    | some zone =>
      simpa [execute, ho] using processLines_dry_calls oracle 0 rest
        ⟨[zoneRow actionDryRun zone], [], 0⟩

/-- C9: a dry-run import is a deterministic function of the input lines:
whatever the remote world answers (it is never consulted), two runs on the
same file produce identical states — in particular identical outcome-row
sequences. -/
theorem execute_dry_deterministic (o₁ o₂ : Oracle)
    (lines : List (List Char)) :
    execute o₁ true lines = execute o₂ true lines := by
  cases lines with
  | nil => rfl
  | cons l0 rest =>
    cases ho : originSearch l0 with
    | none => simp [execute, ho]
    | some zone =>
      simpa [execute, ho] using processLines_dry_oracleIrrel o₁ o₂ 0 rest
        ⟨[zoneRow actionDryRun zone], [], 0⟩

/-- A loop iteration that does not abort appends exactly one row. -/
theorem processLine_ok_rows (o : Oracle) (d : Bool) (z : Nat)
    (st : RunState) (c : List Char) (st2 : RunState)
    (h : processLine o d z st c = (st2, none)) :
    ∃ r, st2.rows = st.rows ++ [r] := by
  unfold processLine at h
  split at h
  · injection h with h1 h2
    exact ⟨unknownRow c, by rw [← h1]⟩
  · split at h
    · injection h with h1 h2
      exact ⟨skippedRow c, by rw [← h1]⟩
    · split at h
      · injection h with h1 h2
        exact Option.noConfusion h2
      · split at h
        · injection h with h1 h2
          exact ⟨_, by rw [← h1]⟩
        · split at h
          · injection h with h1 h2
            exact ⟨_, by rw [← h1]⟩
          · injection h with h1 h2
            exact Option.noConfusion h2

/-- A loop run that completes appends exactly one row per line, in order:
the accumulated suffix has one entry per line, and running the loop on any
prefix of the lines yields the corresponding prefix of the rows. -/
theorem processLines_ok (o : Oracle) (d : Bool) (z : Nat) :
    ∀ (cs : List (List Char)) (st st' : RunState),
      processLines o d z st cs = (st', none) →
      ∃ new : List Row, st'.rows = st.rows ++ new ∧
        new.length = cs.length ∧
        ∀ n : Nat, ∃ stn, processLines o d z st (cs.take n) = (stn, none) ∧
          stn.rows = st.rows ++ new.take n
  | [], st, st', h => by
    injection h with h1 h2
    subst h1
    exact ⟨[], by simp, by simp,
      fun n => ⟨st, by simp [processLines], by simp⟩⟩
  | c :: cs, st, st', h => by
    simp only [processLines] at h
    cases hp : processLine o d z st c with
    | mk st2 e =>
      rw [hp] at h
      cases e with
      | some e => simp at h
      | none =>
        obtain ⟨r, hr⟩ := processLine_ok_rows o d z st c st2 hp
        obtain ⟨new2, h1, h2, h3⟩ := processLines_ok o d z cs st2 st' h
        refine ⟨r :: new2, ?_, by simp [h2], ?_⟩
        · rw [h1, hr, List.append_assoc]
          rfl
        · intro n
          cases n with
          | zero => exact ⟨st, by simp [processLines], by simp⟩
          | succ m =>
            obtain ⟨stn, hm1, hm2⟩ := h3 m
            refine ⟨stn, ?_, ?_⟩
            · simp only [List.take_succ_cons, processLines, hp]
              exact hm1
            · rw [hm2, hr, List.take_succ_cons, List.append_assoc]
              rfl

/-- C4: if an import run completes without an uncaught error, the final
table holds the zone row followed by exactly one outcome row per
non-origin input line (so its length is the number of lines after the
first, plus one), and the rows appear in input-line order: running
the import on any prefix of the record lines produces exactly the
corresponding prefix of the rows. -/
theorem execute_one_row_per_line (oracle : Oracle) (dryRun : Bool)
    (line0 : List Char) (rest : List (List Char)) (st : RunState)
    (h : execute oracle dryRun (line0 :: rest) = (st, none)) :
    st.rows.length = rest.length + 1 ∧
      ∀ n : Nat, ∃ stn,
        execute oracle dryRun (line0 :: rest.take n) = (stn, none) ∧
          stn.rows = st.rows.take (n + 1) := by
  have main : ∀ (zid : Nat) (st0 : RunState) (zr : Row), st0.rows = [zr] →
      processLines oracle dryRun zid st0 rest = (st, none) →
      (∀ n, processLines oracle dryRun zid st0 (rest.take n) =
          execute oracle dryRun (line0 :: rest.take n)) →
      st.rows.length = rest.length + 1 ∧
      ∀ n : Nat, ∃ stn,
        execute oracle dryRun (line0 :: rest.take n) = (stn, none) ∧
          stn.rows = st.rows.take (n + 1) := by
    intro zid st0 zr hzr hrun hpre
    obtain ⟨new, h1, h2, h3⟩ :=
      processLines_ok oracle dryRun zid rest st0 st hrun
    constructor
    · rw [h1, hzr]
      simp [h2]
    · intro n
      obtain ⟨stn, hn1, hn2⟩ := h3 n
      refine ⟨stn, ?_, ?_⟩
      · rw [← hpre n]
        exact hn1
      · rw [hn2, hzr, h1, hzr]
        simp
  cases ho : originSearch line0 with
  | none =>
    simp [execute, ho] at h
  | some zone =>
    cases dryRun with
    | true =>
      refine main 0 ⟨[zoneRow actionDryRun zone], [], 0⟩ _ rfl ?_ ?_
      · simpa [execute, ho] using h
      · intro n
        simp [execute, ho]
    | false =>
      cases h0 : oracle 0 with
      | ok zid =>
        refine main zid ⟨[zoneRow actionFound zone], [Call.resolve zone], 1⟩
          _ rfl ?_ ?_
        · simpa [execute, ho, h0] using h
        · intro n
          simp [execute, ho, h0]
      | error m0 =>
        cases h1 : oracle 1 with
        | error m =>
          simp [execute, ho, h0, h1] at h
        | ok i1 =>
          cases h2 : oracle 2 with
          | error m =>
            simp [execute, ho, h0, h1, h2] at h
          | ok zid =>
            refine main zid ⟨[zoneRow actionCreatedZone zone],
              [Call.resolve zone, Call.createZone zone, Call.resolve zone], 3⟩
              _ rfl ?_ ?_
            · simpa [execute, ho, h0, h1, h2] using h
            · intro n
              simp [execute, ho, h0, h1, h2]

/-- The oracle, file and final state of the C4 witness scenario: a dry
run over a three-line file (origin, one TXT record, one garbage line). -/
def oracleW : Oracle := fun _ => Except.ok 1

def lineW0 : List Char := "$ORIGIN example.com.".data

def linesWrest : List (List Char) :=
  ["@ 1 IN TXT hello".data, "garbage".data]

def stW : RunState :=
  ⟨[zoneRow actionDryRun "example.com".data,
    ⟨actionParsed, "@".data, some "1".data, "TXT".data,
     "hello".data ++ ansiReset⟩,
    unknownRow "garbage".data], [], 0⟩

/-- C4 witness: the three-line dry run completes with one row per
non-origin line plus the zone row, and prefixes of the input give
prefixes of the rows. -/
theorem execute_one_row_per_line_witness :
    stW.rows.length = linesWrest.length + 1 ∧
      ∀ n : Nat, ∃ stn,
        execute oracleW true (lineW0 :: linesWrest.take n) = (stn, none) ∧
          stn.rows = stW.rows.take (n + 1) :=
  execute_one_row_per_line oracleW true lineW0 linesWrest stW (by decide)

end DnsImport
